import Mathlib

set_option autoImplicit false

/-!
Verification development for the Smart Chartered Party Generator repository.

The repository's core (src/change_tracker.py and src/document_processor.py)
is embedded shallowly below:

* a small executable regular-expression engine modelling the subset of
  Python's `re` module used by the source (case-insensitive search,
  DOTALL, capturing groups, greedy and lazy quantifiers, alternation,
  character classes, positive lookahead, `$`), with Python's leftmost /
  backtracking match order, `re.sub`'s non-overlapping scan, and
  CPython's replacement-template parsing (escape expansion and the
  `re.error` raises of `sre_parse.parse_template`);
* `ChangeTracker` / `trackChange` / `determineChangeType` /
  `generateSummary` from src/change_tracker.py (the wall clock
  `datetime.now()` is modelled as an explicit clock function carried by
  the tracker and consulted once per tracked change);
* `extract_recap_data` and `merge_documents` from
  src/document_processor.py, with the full hard-coded pattern catalog and
  merge-rule catalog transcribed from the source.

File-format extraction (`extract_text_from_file`) and document rendering
(`generate_docx` / `generate_pdf`) are I/O boundaries outside the claims;
`extract_recap_data` is modelled from the recap text onward.
-/

/-! ## Characters and classes -/

/-- Flags of a Python `re` call: `re.IGNORECASE` and `re.DOTALL`. -/
structure Flags where
  icase : Bool
  dotall : Bool
deriving DecidableEq, Repr

/-- One item of a regex character class: a literal character, a range,
or one of the shorthands `\d`, `\s`, `\w` (ASCII reading, which covers
every character occurring in the source's catalog and in the inputs
considered here). -/
inductive ClsItem where
  | ch (c : Char)
  | range (lo hi : Char)
  | digit
  | space
  | word
deriving DecidableEq, Repr

def clsItemMatch (c : Char) : ClsItem → Bool
  | ClsItem.ch c' => c == c'
  | ClsItem.range lo hi => decide (lo.toNat ≤ c.toNat) && decide (c.toNat ≤ hi.toNat)
  | ClsItem.digit => c.isDigit
  | ClsItem.space => c == ' ' || c == '\t' || c == '\n' || c == '\r' || c == '\x0b' || c == '\x0c'
  | ClsItem.word => c.isAlphanum || c == '_'

/-- Class membership; under IGNORECASE a character matches if any of its
case variants does (so `[A-Z]` also accepts lowercase, and a negated
`[^C]` rejects both `C` and `c`), as in Python. -/
def clsMatch (fl : Flags) (neg : Bool) (items : List ClsItem) (c : Char) : Bool :=
  let hit :=
    if fl.icase then
      items.any (fun it => clsItemMatch c it || clsItemMatch c.toLower it || clsItemMatch c.toUpper it)
    else
      items.any (fun it => clsItemMatch c it)
  if neg then !hit else hit

def litEq (fl : Flags) (p c : Char) : Bool :=
  if fl.icase then p.toLower == c.toLower else p == c

/-! ## Regular expressions -/

/-- Regex abstract syntax: exactly the constructs appearing in the
source's patterns.  `star` carries laziness (`*?` vs `*`); `+`, `?` and
`{n}` are derived forms below.  `group` is a numbered capturing group,
`look` a positive lookahead `(?=...)`, `eol` is `$`. -/
inductive Re where
  | eps
  | lit (c : Char)
  | cls (neg : Bool) (items : List ClsItem)
  | dot
  | seq (a b : Re)
  | alt (a b : Re)
  | star (lz : Bool) (r : Re)
  | group (idx : Nat) (r : Re)
  | look (r : Re)
  | eol
deriving DecidableEq, Repr

def reSize : Re → Nat
  | Re.eps => 1
  | Re.lit _ => 1
  | Re.cls _ _ => 1
  | Re.dot => 1
  | Re.seq a b => reSize a + reSize b + 1
  | Re.alt a b => reSize a + reSize b + 1
  | Re.star _ r => reSize r + 1
  | Re.group _ r => reSize r + 1
  | Re.look r => reSize r + 1
  | Re.eol => 1

/-- Largest capturing-group index occurring in a pattern; `match.groups()`
is non-empty exactly when this is positive. -/
def reMaxGroup : Re → Nat
  | Re.seq a b => max (reMaxGroup a) (reMaxGroup b)
  | Re.alt a b => max (reMaxGroup a) (reMaxGroup b)
  | Re.star _ r => reMaxGroup r
  | Re.group i r => max i (reMaxGroup r)
  | Re.look r => reMaxGroup r
  | _ => 0

/-- A match: span `[start, stop)` in the subject plus captured-group
spans (`(index, start, stop)`, most recent first, as Python keeps the
last repetition of a group). -/
structure MatchInfo where
  start : Nat
  stop : Nat
  caps : List (Nat × Nat × Nat)
deriving DecidableEq, Repr

/-- Backtracking matcher in continuation-passing style, Python order:
alternatives left first, greedy quantifiers longest first, lazy ones
shortest first; a quantifier iteration that consumes nothing ends the
loop (Python's empty-repeat rule).  `fuel` bounds recursion depth only;
`tryMatchAt` supplies enough fuel for any run. -/
def reMatch (fl : Flags) (cs : List Char) :
    Nat → Re → Nat → List (Nat × Nat × Nat) →
    (Nat → List (Nat × Nat × Nat) → Option MatchInfo) → Option MatchInfo
  | 0, _, _, _, _ => none
  | fuel + 1, r, pos, caps, k =>
    match r with
    | Re.eps => k pos caps
    | Re.lit c =>
      match cs[pos]? with
      | some c' => if litEq fl c c' then k (pos + 1) caps else none
      | none => none
    | Re.cls neg items =>
      match cs[pos]? with
      | some c' => if clsMatch fl neg items c' then k (pos + 1) caps else none
      | none => none
    | Re.dot =>
      match cs[pos]? with
      | some c' => if fl.dotall || !(c' == '\n') then k (pos + 1) caps else none
      | none => none
    | Re.seq a b =>
      reMatch fl cs fuel a pos caps (fun p cp => reMatch fl cs fuel b p cp k)
    | Re.alt a b =>
      match reMatch fl cs fuel a pos caps k with
      | some m => some m
      | none => reMatch fl cs fuel b pos caps k
    | Re.star lz r' =>
      if lz then
        match k pos caps with
        | some m => some m
        | none =>
          reMatch fl cs fuel r' pos caps (fun p cp =>
            if p == pos then none else reMatch fl cs fuel (Re.star lz r') p cp k)
      else
        match reMatch fl cs fuel r' pos caps (fun p cp =>
            if p == pos then none else reMatch fl cs fuel (Re.star lz r') p cp k) with
        | some m => some m
        | none => k pos caps
    | Re.group i r' =>
      reMatch fl cs fuel r' pos caps (fun p cp => k p ((i, pos, p) :: cp))
    | Re.look r' =>
      match reMatch fl cs fuel r' pos caps (fun p cp => some (MatchInfo.mk p p cp)) with
      | some _ => k pos caps
      | none => none
    | Re.eol =>
      if pos == cs.length || (pos + 1 == cs.length && cs[pos]? == some '\n') then k pos caps
      else none

/-- Depth bound sufficient for `reMatch` on this subject and pattern. -/
def fuelFor (cs : List Char) (r : Re) : Nat :=
  (cs.length + 2) * (reSize r + 2)

/-- Attempt a match anchored at position `pos`. -/
def tryMatchAt (fl : Flags) (r : Re) (cs : List Char) (pos : Nat) : Option MatchInfo :=
  reMatch fl cs (fuelFor cs r) r pos [] (fun p cp => some (MatchInfo.mk pos p cp))

/-- Leftmost match at or after `pos`: Python `re.search` semantics
(the counter argument walks the remaining start positions). -/
def searchFromAux (fl : Flags) (r : Re) (cs : List Char) : Nat → Nat → Option MatchInfo
  | 0, _ => none
  | j + 1, pos =>
    match tryMatchAt fl r cs pos with
    | some m => some m
    | none => searchFromAux fl r cs j (pos + 1)

def searchFrom (fl : Flags) (r : Re) (cs : List Char) (pos : Nat) : Option MatchInfo :=
  searchFromAux fl r cs (cs.length + 1 - pos) pos

/-- `re.search(pattern, text, flags)`. -/
def reSearchCs (fl : Flags) (r : Re) (cs : List Char) : Option MatchInfo :=
  searchFrom fl r cs 0

def reSearch (fl : Flags) (r : Re) (s : String) : Option MatchInfo :=
  reSearchCs fl r s.data

/-! ## Spans and groups -/

def strFrom (cs : List Char) (pos : Nat) : String :=
  String.mk (cs.drop pos)

def substr (cs : List Char) (a b : Nat) : String :=
  String.mk ((cs.drop a).take (b - a))

def charStrAt (cs : List Char) (i : Nat) : String :=
  match cs[i]? with
  | some c => String.mk [c]
  | none => ""

def capLookup : List (Nat × Nat × Nat) → Nat → Option (Nat × Nat)
  | [], _ => none
  | (j, a, b) :: rest, i => if j = i then some (a, b) else capLookup rest i

/-- `match.group(i)` for `i ≥ 1`; `none` when the group did not
participate in the match. -/
def pyGroup (cs : List Char) (m : MatchInfo) (i : Nat) : Option String :=
  (capLookup m.caps i).map (fun p => substr cs p.1 p.2)

/-- `match.group(0)`: the whole matched span. -/
def pyGroup0 (cs : List Char) (m : MatchInfo) : String :=
  substr cs m.start m.stop

/-- `match.group(i)` where the source relies on the group always
participating (true of every such access in this catalog, since no
accessed group sits under `?`, `*` or an alternative). -/
def pyGroupD (cs : List Char) (m : MatchInfo) (i : Nat) : String :=
  (pyGroup cs m i).getD ""

/-! ## Substitution (`re.sub`) -/

/-- A parsed replacement template: Python processes the replacement
string of `re.sub` into literals and group backreferences (the parser
`parseTemplate` below embeds CPython's `sre_parse.parse_template`). -/
inductive TmplPart where
  | litstr (s : String)
  | grp (i : Nat)
deriving DecidableEq, Repr

/-- Expansion of a parsed template at one match.  `\g<0>` is the whole
match; for `i ≥ 1` Python raises "unmatched group" when group `i` did
not participate — unreachable in this program, where the only group
reference the source ever substitutes is group 1 of the trading anchor
pattern (a group enclosing a literal, present in every match). -/
def expandTmpl (cs : List Char) (m : MatchInfo) (parts : List TmplPart) : String :=
  parts.foldl
    (fun acc p =>
      acc ++ match p with
             | TmplPart.litstr s => s
             | TmplPart.grp i => if i == 0 then pyGroup0 cs m else pyGroupD cs m i) ""

/-! ### Replacement-template parsing (CPython `sre_parse.parse_template`)

`re.sub` with a string replacement processes that string for backslash
escapes before substituting: `\n`, `\t`, ... become control characters,
`\1`..`\99` and `\g<...>` become group references (checked against the
pattern's group count), octal escapes are decoded, an ASCII-letter
escape outside the table and a trailing backslash raise `re.error`, and
a backslash before any other character is kept literally.  Errors are
modelled as `Except.error` with the CPython message prefix. -/

def isOctCh (c : Char) : Bool :=
  '0'.toNat ≤ c.toNat && c.toNat ≤ '7'.toNat

def octVal (c : Char) : Nat := c.toNat - '0'.toNat

def decVal (c : Char) : Nat := c.toNat - '0'.toNat

/-- CPython's `ESCAPES` table as used for replacement templates
(`\a \b \f \n \r \t \v \\`). -/
def templEscape : Char → Option Char
  | 'a' => some '\x07'
  | 'b' => some '\x08'
  | 'f' => some '\x0c'
  | 'n' => some '\x0a'
  | 'r' => some '\x0d'
  | 't' => some '\x09'
  | 'v' => some '\x0b'
  | '\\' => some '\\'
  | _ => none

/-- `Tokenizer.getuntil(">")`: the characters before the first `>` and
the remainder after it; `none` when `>` never comes. -/
def splitUntilGt : List Char → Option (List Char × List Char)
  | [] => none
  | c :: rest =>
    if c == '>' then some ([], rest)
    else
      match splitUntilGt rest with
      | some (nm, r) => some (c :: nm, r)
      | none => none

/-- `str.isidentifier()` (ASCII reading, enough for this program's
templates; a name that is an identifier names a named group, and this
pattern catalog has none, so it is unknown). -/
def isIdentName : List Char → Bool
  | [] => false
  | c :: rest => (c.isAlpha || c == '_') && rest.all (fun d => d.isAlphanum || d == '_')

def digitsToNat (nm : List Char) : Nat :=
  nm.foldl (fun n c => n * 10 + decVal c) 0

/-- Prepend a group reference after checking it against the pattern's
group count (`addgroup` in CPython: `invalid group reference` when the
index exceeds the number of capturing groups; group 0 always passes). -/
def grpRef (groups i : Nat) (tail : Except String (List TmplPart)) :
    Except String (List TmplPart) :=
  if groups < i then Except.error "invalid group reference"
  else tail.map (fun ps => TmplPart.grp i :: ps)

/-- One pass of CPython's `parse_template` loop.  `groups` is the number
of capturing groups of the pattern being substituted into.  Every
iteration consumes at least one character, so `length + 1` fuel always
suffices (the fuel arm is unreachable). -/
def parseTemplateAux (groups : Nat) : Nat → List Char → Except String (List TmplPart)
  | 0, _ => Except.error "template fuel exhausted"
  | _, [] => Except.ok []
  | fuel + 1, c :: rest =>
    if c == '\\' then
      match rest with
      | [] => Except.error "bad escape (end of pattern)"
      | e :: rest1 =>
        if e == 'g' then
          match rest1 with
          | '<' :: rest2 =>
            match splitUntilGt rest2 with
            | none => Except.error "missing >, unterminated name"
            | some (nm, rest3) =>
              if nm.isEmpty then Except.error "missing group name"
              else if isIdentName nm then Except.error "unknown group name"
              else if nm.all Char.isDigit then
                grpRef groups (digitsToNat nm) (parseTemplateAux groups fuel rest3)
              else Except.error "bad character in group name"
          | _ => Except.error "missing <"
        else if e == '0' then
          let ds := (rest1.takeWhile isOctCh).take 2
          let v := ds.foldl (fun n d => n * 8 + octVal d) 0
          (parseTemplateAux groups fuel (rest1.drop ds.length)).map
            (fun ps => TmplPart.litstr (String.mk [Char.ofNat v]) :: ps)
        else if e.isDigit then
          match rest1 with
          | d2 :: rest2 =>
            if d2.isDigit then
              match rest2 with
              | d3 :: rest3 =>
                if isOctCh e && isOctCh d2 && isOctCh d3 then
                  let v := octVal e * 64 + octVal d2 * 8 + octVal d3
                  if 255 < v then
                    Except.error "octal escape value outside of range 0-0o377"
                  else
                    (parseTemplateAux groups fuel rest3).map
                      (fun ps => TmplPart.litstr (String.mk [Char.ofNat v]) :: ps)
                else
                  grpRef groups (decVal e * 10 + decVal d2)
                    (parseTemplateAux groups fuel rest2)
              | [] =>
                grpRef groups (decVal e * 10 + decVal d2)
                  (parseTemplateAux groups fuel rest2)
            else grpRef groups (decVal e) (parseTemplateAux groups fuel (d2 :: rest2))
          | [] => grpRef groups (decVal e) (parseTemplateAux groups fuel [])
        else
          match templEscape e with
          | some ch =>
            (parseTemplateAux groups fuel rest1).map
              (fun ps => TmplPart.litstr (String.mk [ch]) :: ps)
          | none =>
            if e.isAlpha then Except.error "bad escape"
            else
              (parseTemplateAux groups fuel rest1).map
                (fun ps => TmplPart.litstr (String.mk [c, e]) :: ps)
    else
      (parseTemplateAux groups fuel rest).map
        (fun ps => TmplPart.litstr (String.mk [c]) :: ps)

/-- CPython `parse_template`: the parsed parts, or the `re.error` it
raises. -/
def parseTemplate (groups : Nat) (cs : List Char) : Except String (List TmplPart) :=
  parseTemplateAux groups (cs.length + 1) cs

/-- The non-overlapping left-to-right scan of `re.sub`: each iteration
finds the next match at or after `pos`; a non-empty match resumes at its
end, an empty match resumes one character later (Python ≥ 3.7).  The
counter `k` only bounds the number of iterations; the position strictly
increases, so `length + 1` iterations always suffice. -/
def subScanAux (fl : Flags) (r : Re) (cs : List Char) : Nat → Nat → List MatchInfo
  | 0, _ => []
  | k + 1, pos =>
    match searchFrom fl r cs pos with
    | none => []
    | some m =>
      m :: subScanAux fl r cs k (if m.start < m.stop then m.stop else m.start + 1)

/-- All (non-overlapping) matches a global substitution touches. -/
def subMatches (fl : Flags) (r : Re) (cs : List Char) : List MatchInfo :=
  subScanAux fl r cs (cs.length + 1) 0

/-- `re.sub` with a (parsed) string replacement: rebuilds the subject
with every scanned match replaced by the expanded template. -/
def subTmplAux (fl : Flags) (r : Re) (cs : List Char) (parts : List TmplPart) :
    Nat → Nat → String
  | 0, pos => strFrom cs pos
  | k + 1, pos =>
    match searchFrom fl r cs pos with
    | none => strFrom cs pos
    | some m =>
      let rep := expandTmpl cs m parts
      let pre := substr cs pos m.start
      if m.start < m.stop then
        pre ++ rep ++ subTmplAux fl r cs parts k m.stop
      else
        pre ++ rep ++ charStrAt cs m.start ++ subTmplAux fl r cs parts k (m.start + 1)

def reSubTmpl (fl : Flags) (r : Re) (parts : List TmplPart) (s : String) : String :=
  subTmplAux fl r s.data parts (s.data.length + 1) 0

/-! ## Plain string helpers -/

def pyCharIsSpace (c : Char) : Bool :=
  c == ' ' || c == '\t' || c == '\n' || c == '\r' || c == '\x0b' || c == '\x0c'

/-- Python `str.strip()`: drop leading and trailing whitespace (the
ASCII whitespace set, which covers the values this catalog strips). -/
def pyStrip (s : String) : String :=
  String.mk (((s.data.dropWhile pyCharIsSpace).reverse.dropWhile pyCharIsSpace).reverse)

/-- `subAt needle hay`: does `needle` occur as a prefix of `hay`? -/
def subAt : List Char → List Char → Bool
  | [], _ => true
  | _ :: _, [] => false
  | n :: ns, h :: hs => n == h && subAt ns hs

def countOccurAux (needle : List Char) : List Char → Nat
  | [] => if subAt needle [] then 1 else 0
  | c :: rest => (if subAt needle (c :: rest) then 1 else 0) + countOccurAux needle rest

/-- Number of positions of `hay` at which `needle` occurs. -/
def countOccur (hay needle : String) : Nat :=
  countOccurAux needle.data hay.data

def containsSubAux (needle : List Char) : List Char → Bool
  | [] => subAt needle []
  | c :: rest => subAt needle (c :: rest) || containsSubAux needle rest

/-- Does `needle` occur anywhere in `hay`? -/
def containsSub (hay needle : String) : Bool :=
  containsSubAux needle.data hay.data

/-! ## src/change_tracker.py -/

/-- One tracked change (the dict built in `ChangeTracker.track_change`). -/
structure ChangeRecord where
  id : Nat
  field : String
  old_value : String
  new_value : String
  description : String
  timestamp : String
  change_type : String
deriving DecidableEq, Repr

/-- `ChangeTracker`: the mutable `self.changes` list plus the wall clock;
`datetime.now().isoformat()` at the n-th tracked change is modelled as
`clock n` (one clock reading per call, in call order). -/
structure ChangeTracker where
  changes : List ChangeRecord
  clock : Nat → String

/-- `ChangeTracker._determine_change_type` (Python string truthiness:
a string is falsy exactly when it is empty). -/
def determineChangeType (old_value new_value : String) : String :=
  if old_value = "" ∧ new_value ≠ "" then "addition"
  else if old_value ≠ "" ∧ new_value = "" then "deletion"
  else if old_value ≠ new_value then "modification"
  else "no_change"

/-- `ChangeTracker.track_change`: builds the record, appends it to the
log, and returns it (here together with the updated tracker). -/
def trackChange (t : ChangeTracker) (field old_value new_value description : String) :
    ChangeRecord × ChangeTracker :=
  let change : ChangeRecord :=
    { id := t.changes.length + 1
      field := field
      old_value := old_value
      new_value := new_value
      description := description
      timestamp := t.clock t.changes.length
      change_type := determineChangeType old_value new_value }
  (change, { t with changes := t.changes ++ [change] })

/-- The dict returned by `generate_summary`.  The empty-log branch
returns an empty `change_types` dict and no `timestamp` key; this is
modelled by an empty association list and `none`. -/
structure ChangeSummary where
  total_changes : Nat
  change_types : List (String × Nat)
  fields_modified : List String
  summary : String
  timestamp : Option String
deriving DecidableEq, Repr

/-- `fields_modified.add(field)`: Python uses a set; the set of fields is
modelled as a first-insertion-ordered duplicate-free list (the source
turns the set into a list whose order is unspecified). -/
def addField (fields : List String) (f : String) : List String :=
  if fields.contains f then fields else fields ++ [f]

/-- Body of `generate_summary`'s counting loop: bucket the record's
`change_type` and collect its field. -/
def sumStep (acc : (Nat × Nat × Nat) × List String) (c : ChangeRecord) :
    (Nat × Nat × Nat) × List String :=
  let counts := acc.1
  let counts :=
    if c.change_type = "addition" then (counts.1 + 1, counts.2.1, counts.2.2)
    else if c.change_type = "modification" then (counts.1, counts.2.1 + 1, counts.2.2)
    else if c.change_type = "deletion" then (counts.1, counts.2.1, counts.2.2 + 1)
    else counts
  (counts, addField acc.2 c.field)

/-- The counting loop's initial accumulator: all three counts zero, no
fields collected. -/
def sumInit : (Nat × Nat × Nat) × List String := ((0, 0, 0), [])

/-- The `summary_parts` list: non-zero counts in the fixed order
addition, modification, deletion. -/
def sentenceParts (a mo d : Nat) : List String :=
  (if a > 0 then [toString a ++ " addition(s)"] else []) ++
  (if mo > 0 then [toString mo ++ " modification(s)"] else []) ++
  (if d > 0 then [toString d ++ " deletion(s)"] else [])

/-- `ChangeTracker.generate_summary` (the timestamp of the non-empty
branch is a fresh clock reading, passed in as `now`). -/
def generateSummary (changes : List ChangeRecord) (now : String) : ChangeSummary :=
  if changes = [] then
    { total_changes := 0
      change_types := []
      fields_modified := []
      summary := "No changes were made to the document."
      timestamp := none }
  else
    let acc := changes.foldl sumStep sumInit
    let a := acc.1.1
    let mo := acc.1.2.1
    let d := acc.1.2.2
    { total_changes := changes.length
      change_types := [("additions", a), ("modifications", mo), ("deletions", d)]
      fields_modified := acc.2
      summary :=
        "Document successfully merged with " ++
          String.intercalate ", " (sentenceParts a mo d) ++ "."
      timestamp := some now }

/-! ## Pattern-building helpers -/

def rcat (l : List Re) : Re := l.foldr Re.seq Re.eps

/-- A literal string as a regex (each character matched literally). -/
def rchars (s : String) : Re := rcat (s.data.map Re.lit)

def rplus (lz : Bool) (r : Re) : Re := Re.seq r (Re.star lz r)

def ropt (r : Re) : Re := Re.alt r Re.eps

def rrep : Nat → Re → Re
  | 0, _ => Re.eps
  | n + 1, r => Re.seq r (rrep n r)

def dcls : Re := Re.cls false [ClsItem.digit]
def scls : Re := Re.cls false [ClsItem.space]
def wcls : Re := Re.cls false [ClsItem.word]
def dplus : Re := rplus false dcls
def splus : Re := rplus false scls
def sstar : Re := Re.star false scls
def wplus : Re := rplus false wcls

/-! ## src/document_processor.py — extraction pattern catalog

Each definition transcribes one entry of the `patterns` dict in
`extract_recap_data` (lines 105–121). -/

/-- `MV\s+([A-Z\s\d]+?)(?:\s+ex\s+|IMO|\s+Cyprus)` -/
def vesselNameRe : Re :=
  rcat [rchars "MV", splus,
        Re.group 1 (rplus true (Re.cls false [ClsItem.range 'A' 'Z', ClsItem.space, ClsItem.digit])),
        Re.alt (rcat [splus, rchars "ex", splus])
          (Re.alt (rchars "IMO") (rcat [splus, rchars "Cyprus"]))]

/-- `IMO\s+(\d+)` -/
def imoNumberRe : Re :=
  rcat [rchars "IMO", splus, Re.group 1 dplus]

/-- `(Cyprus|Liberian|Marshall Islands|Panama)\s+flag` -/
def flagRe : Re :=
  rcat [Re.group 1 (Re.alt (rchars "Cyprus")
          (Re.alt (rchars "Liberian") (Re.alt (rchars "Marshall Islands") (rchars "Panama")))),
        splus, rchars "flag"]

/-- `BLT\s+(\d{4})` -/
def builtYearRe : Re :=
  rcat [rchars "BLT", splus, Re.group 1 (rrep 4 dcls)]

/-- `DWT\s+([\d,\']+)` -/
def dwtRe : Re :=
  rcat [rchars "DWT", splus,
        Re.group 1 (rplus false (Re.cls false [ClsItem.digit, ClsItem.ch ',', ClsItem.ch '\'']))]

/-- `Delivery\s+DLOSP\s+([A-Za-z\s,]+)` -/
def deliveryPortRe : Re :=
  rcat [rchars "Delivery", splus, rchars "DLOSP", splus,
        Re.group 1 (rplus false (Re.cls false
          [ClsItem.range 'A' 'Z', ClsItem.range 'a' 'z', ClsItem.space, ClsItem.ch ',']))]

/-- `Laycan:\s*([^–\n]+)` -/
def laycanExtractRe : Re :=
  rcat [rchars "Laycan:", sstar,
        Re.group 1 (rplus false (Re.cls true [ClsItem.ch '–', ClsItem.ch '\n']))]

/-- `at\s+([\d.]+)\s*%\s*bhsi38` -/
def hireRateRe : Re :=
  rcat [rchars "at", splus,
        Re.group 1 (rplus false (Re.cls false [ClsItem.digit, ClsItem.ch '.'])),
        sstar, Re.lit '%', sstar, rchars "bhsi38"]

/-- `About\s+(\d+)\s+to\s+about\s+(\d+)\s+months` -/
def periodRe : Re :=
  rcat [rchars "About", splus, Re.group 1 dplus, splus, rchars "to", splus,
        rchars "about", splus, Re.group 2 dplus, splus, rchars "months"]

/-- `opt\s+about\s+(\d+)\s*[–-]\s*about\s+(\d+)\s+months\s+at\s*\$\s*([\d,]+)` -/
def optionalPeriodRe : Re :=
  rcat [rchars "opt", splus, rchars "about", splus, Re.group 1 dplus, sstar,
        Re.cls false [ClsItem.ch '–', ClsItem.ch '-'], sstar,
        rchars "about", splus, Re.group 2 dplus, splus, rchars "months", splus,
        rchars "at", sstar, Re.lit '$', sstar,
        Re.group 3 (rplus false (Re.cls false [ClsItem.digit, ClsItem.ch ',']))]

/-- `REDEL\s+DOP\s+1SP\s+WW\s+WITHIN\s+TRADING\s+LIMITS.*?(?=\+|$)` -/
def redeliveryRangeRe : Re :=
  rcat [rchars "REDEL", splus, rchars "DOP", splus, rchars "1SP", splus, rchars "WW", splus,
        rchars "WITHIN", splus, rchars "TRADING", splus, rchars "LIMITS",
        Re.star true Re.dot, Re.look (Re.alt (Re.lit '+') Re.eol)]

/-- `VLSFO\s+ABOUT\s+(\d+)\s+MT\s+AND\s+MGO\s+ABOUT\s+(\d+)\s+MT` -/
def bunkersDeliveryRe : Re :=
  rcat [rchars "VLSFO", splus, rchars "ABOUT", splus, Re.group 1 dplus, splus, rchars "MT",
        splus, rchars "AND", splus, rchars "MGO", splus, rchars "ABOUT", splus,
        Re.group 2 dplus, splus, rchars "MT"]

/-- `Commission:\s*([\d.]+)\s*%?\s*address\s+commission` -/
def commissionRe : Re :=
  rcat [rchars "Commission:", sstar,
        Re.group 1 (rplus false (Re.cls false [ClsItem.digit, ClsItem.ch '.'])),
        sstar, ropt (Re.lit '%'), sstar, rchars "address", splus, rchars "commission"]

/-- `LOUIS\s+DREYFUS\s+COMPANY[^+]*` -/
def chartererRe : Re :=
  rcat [rchars "LOUIS", splus, rchars "DREYFUS", splus, rchars "COMPANY",
        Re.star false (Re.cls true [ClsItem.ch '+'])]

/-- `MV\s+LUNAR\s+STAR\s+1\s+SHIPPING\s+COMPANY[^+]*` -/
def ownerRe : Re :=
  rcat [rchars "MV", splus, rchars "LUNAR", splus, rchars "STAR", splus, rchars "1", splus,
        rchars "SHIPPING", splus, rchars "COMPANY",
        Re.star false (Re.cls true [ClsItem.ch '+'])]

/-- The `patterns` dict of `extract_recap_data`, in source order. -/
def extractPatterns : List (String × Re) :=
  [("vessel_name", vesselNameRe),
   ("imo_number", imoNumberRe),
   ("flag", flagRe),
   ("built_year", builtYearRe),
   ("dwt", dwtRe),
   ("delivery_port", deliveryPortRe),
   ("laycan", laycanExtractRe),
   ("hire_rate", hireRateRe),
   ("period", periodRe),
   ("optional_period", optionalPeriodRe),
   ("redelivery_range", redeliveryRangeRe),
   ("bunkers_delivery", bunkersDeliveryRe),
   ("commission", commissionRe),
   ("charterer", chartererRe),
   ("owner", ownerRe)]

/-- `TRADING EXCLUSIONS(.*?)(?=\+|$)` (line 145). -/
def tradingSectionRe : Re :=
  rcat [rchars "TRADING EXCLUSIONS", Re.group 1 (Re.star true Re.dot),
        Re.look (Re.alt (Re.lit '+') Re.eol)]

/-- `Hire payment clause:(.*?)(?=Conversion|For subsequent)` (line 150). -/
def hireSectionRe : Re :=
  rcat [rchars "Hire payment clause:", Re.group 1 (Re.star true Re.dot),
        Re.look (Re.alt (rchars "Conversion") (rchars "For subsequent"))]

/-! ## FieldMap -/

/-- The `extracted_data` dict: an insertion-ordered association list. -/
def FieldMap : Type := List (String × String)

def flookup {α : Type} : List (String × α) → String → Option α
  | [], _ => none
  | (k', v) :: rest, k => if k' = k then some v else flookup rest k

/-- Python dict assignment `d[k] = v`: overwrite in place if the key
exists, else append. -/
def dinsert (m : List (String × String)) (k v : String) : List (String × String) :=
  if (flookup m k).isSome then m.map (fun p => if p.1 = k then (k, v) else p)
  else m ++ [(k, v)]

/-- Flags of every extraction search: `re.IGNORECASE | re.DOTALL`. -/
def idFlags : Flags := { icase := true, dotall := true }

/-- Flags of the merge-rule searches and substitutions: `re.IGNORECASE`. -/
def mFlags : Flags := { icase := true, dotall := false }

/-- The trading-exclusions anchor search/sub passes no flags. -/
def nFlags : Flags := { icase := false, dotall := false }

/-- Body of the extraction loop (lines 125–142) for one catalog entry.
The fallback arms mirror the source's `except IndexError` path, which
stores `match.group(0).strip()`; for this catalog every accessed group
always participates, so those arms are unreachable. -/
def applyCatalogEntry (cs : List Char) (m : List (String × String)) (entry : String × Re) :
    List (String × String) :=
  let key := entry.1
  match reSearchCs idFlags entry.2 cs with
  | none => m
  | some mm =>
    if key = "period" then
      match pyGroup cs mm 1, pyGroup cs mm 2 with
      | some g1, some g2 => dinsert m key (g1 ++ " to " ++ g2 ++ " months")
      | _, _ => dinsert m key (pyStrip (pyGroup0 cs mm))
    else if key = "optional_period" then
      match pyGroup cs mm 1, pyGroup cs mm 2, pyGroup cs mm 3 with
      | some g1, some g2, some g3 =>
        dinsert m key (g1 ++ " to " ++ g2 ++ " months at $" ++ g3)
      | _, _, _ => dinsert m key (pyStrip (pyGroup0 cs mm))
    else if key = "bunkers_delivery" then
      match pyGroup cs mm 1, pyGroup cs mm 2 with
      | some g1, some g2 => dinsert (dinsert m "vlsfo_quantity" g1) "mgo_quantity" g2
      | _, _ => dinsert m key (pyStrip (pyGroup0 cs mm))
    else if reMaxGroup entry.2 > 0 then
      match pyGroup cs mm 1 with
      | some g1 => dinsert m key (pyStrip g1)
      | none => dinsert m key (pyStrip (pyGroup0 cs mm))
    else dinsert m key (pyStrip (pyGroup0 cs mm))

/-- `extract_recap_data`, modelled from the recap text onward (the
file-reading boundary `extract_text_from_file` is outside the core).
After the pattern loop come the two dedicated section searches; their
group 1 always participates when they match. -/
def extract_recap_data (recap_text : String) : List (String × String) :=
  let cs := recap_text.data
  let extracted := extractPatterns.foldl (applyCatalogEntry cs) []
  let extracted :=
    match reSearchCs idFlags tradingSectionRe cs with
    | some mm => dinsert extracted "trading_exclusions" (pyStrip (pyGroupD cs mm 1))
    | none => extracted
  match reSearchCs idFlags hireSectionRe cs with
  | some mm => dinsert extracted "hire_payment" (pyStrip (pyGroupD cs mm 1))
  | none => extracted

/-! ## src/document_processor.py — merge rules -/

/-- A merge rule's replacement strategy: a fixed string or a function of
the match (the source stores either a string or a lambda under the
`replacement` key). -/
inductive Repl where
  | fixed (s : String)
  | fn (f : List Char → MatchInfo → String)

/-- One entry of the `merge_rules` list.  `recap_field` is carried by
two rules in the source but never read by the merge loop. -/
structure MergeRule where
  field : String
  pattern : Re
  replacement : Repl
  recap_field : Option String
  description : String

/-- `(made and concluded in\s+\w+\s+)(\d+)(th|st|nd|rd)(\s+day of\s+\w+\s+19\s+)(\d+)` -/
def charterDateRe : Re :=
  rcat [Re.group 1 (rcat [rchars "made and concluded in", splus, wplus, splus]),
        Re.group 2 dplus,
        Re.group 3 (Re.alt (rchars "th") (Re.alt (rchars "st") (Re.alt (rchars "nd") (rchars "rd")))),
        Re.group 4 (rcat [splus, rchars "day of", splus, wplus, splus, rchars "19", splus]),
        Re.group 5 dplus]

/-- `(Steamship/Motorship\s+")([^"]+)(")` -/
def vesselRuleRe : Re :=
  rcat [Re.group 1 (rcat [rchars "Steamship/Motorship", splus, Re.lit '"']),
        Re.group 2 (rplus false (Re.cls true [ClsItem.ch '"'])),
        Re.group 3 (Re.lit '"')]

/-- `(Between\s+)[^,]+,([^,]+,){2}[^,]+,([^,]+,)[^,]+` -/
def ownerRuleRe : Re :=
  rcat [Re.group 1 (rcat [rchars "Between", splus]),
        rplus false (Re.cls true [ClsItem.ch ',']), Re.lit ',',
        rrep 2 (Re.group 2 (rcat [rplus false (Re.cls true [ClsItem.ch ',']), Re.lit ','])),
        rplus false (Re.cls true [ClsItem.ch ',']), Re.lit ',',
        Re.group 3 (rcat [rplus false (Re.cls true [ClsItem.ch ',']), Re.lit ',']),
        rplus false (Re.cls true [ClsItem.ch ','])]

/-- `(and\s+)[^C]+COMPANY[^S]+SINGAPORE[^S]+SINGAPORE` -/
def chartererRuleRe : Re :=
  rcat [Re.group 1 (rcat [rchars "and", splus]),
        rplus false (Re.cls true [ClsItem.ch 'C']), rchars "COMPANY",
        rplus false (Re.cls true [ClsItem.ch 'S']), rchars "SINGAPORE",
        rplus false (Re.cls true [ClsItem.ch 'S']), rchars "SINGAPORE"]

/-- `(about\s+minimum\s+)(\d+)(\s+months\s+to\s+maximum\s+)(\d+)(\s+months[^,]*)` -/
def charterPeriodRe : Re :=
  rcat [Re.group 1 (rcat [rchars "about", splus, rchars "minimum", splus]),
        Re.group 2 dplus,
        Re.group 3 (rcat [splus, rchars "months", splus, rchars "to", splus, rchars "maximum", splus]),
        Re.group 4 dplus,
        Re.group 5 (rcat [splus, rchars "months", Re.star false (Re.cls true [ClsItem.ch ','])])]

/-- `(at\s+on\s+dropping\s+last\s+outward\s+sea\s+pilot\s+)[^(]+(\(intention[^)]*\))` -/
def deliveryRuleRe : Re :=
  rcat [Re.group 1 (rcat [rchars "at", splus, rchars "on", splus, rchars "dropping", splus,
          rchars "last", splus, rchars "outward", splus, rchars "sea", splus,
          rchars "pilot", splus]),
        rplus false (Re.cls true [ClsItem.ch '(']),
        Re.group 2 (rcat [Re.lit '(', rchars "intention",
          Re.star false (Re.cls true [ClsItem.ch ')']), Re.lit ')'])]

/-- `(WOULD SUGGEST 1 \(ONE\) MONTH AFTER DIVER SURVEY TO BE CARRIED OUT IN YEOSU)` -/
def laycanRuleRe : Re :=
  Re.group 1 (rchars "WOULD SUGGEST 1 (ONE) MONTH AFTER DIVER SURVEY TO BE CARRIED OUT IN YEOSU")

/-- The `merge_rules` list (lines 162–207), in source order. -/
def mergeRules : List MergeRule :=
  [{ field := "charter_date"
     pattern := charterDateRe
     replacement := Repl.fn (fun cs m =>
       pyGroupD cs m 1 ++ "10" ++ pyGroupD cs m 3 ++
         (pyGroupD cs m 4).replace "May" "June" ++ "2025")
     recap_field := none
     description := "Updated charter date to June 10, 2025" },
   { field := "vessel_name"
     pattern := vesselRuleRe
     replacement := Repl.fn (fun cs m =>
       pyGroupD cs m 1 ++ "LUNAR STAR 1" ++ pyGroupD cs m 3)
     recap_field := some "vessel_name"
     description := "Updated vessel name" },
   { field := "owner_details"
     pattern := ownerRuleRe
     replacement := Repl.fixed "MV LUNAR STAR 1 SHIPPING COMPANY LIMITED, C/o Oesterreichischer Lloyd Seereederei (Cyprus) Ltd, 67 Franklin Roosevelt Ave, Limassol, VAT number CY60177359M"
     recap_field := none
     description := "Updated owner details" },
   { field := "charterer_details"
     pattern := chartererRuleRe
     replacement := Repl.fixed "Louis Dreyfus Company Suisse S.A.- Charterers of the City of GVA Center,29 route de l' Aéroport- P.O. Box 236, 1215 Geneva 15,Switzerland"
     recap_field := none
     description := "Updated charterer details" },
   { field := "charter_period"
     pattern := charterPeriodRe
     replacement := Repl.fn (fun _ _ =>
       "About 11 to about 14 months (about to mean +/- 15 days in charterer's option) at 107.00 % bhsi38 index ( with option to convert to fixed rate) + opt about 10 – about 14 months (about to mean +/ - 15 days in charterer's option) at $ 11,500 declarable in charterer's option. Optional 10-14 months to be declared by Charterers latest 45 days prior max duration")
     recap_field := none
     description := "Updated charter period with index rate and optional period" },
   { field := "delivery_port"
     pattern := deliveryRuleRe
     replacement := Repl.fixed "Yeosu, subject Sellers port changes"
     recap_field := some "delivery_port"
     description := "Updated delivery port" },
   { field := "laycan"
     pattern := laycanRuleRe
     replacement := Repl.fixed "Laycan: 3-10 July – it is mutually agreed between both Owners and Charterers that if any adjustment on laycan required, same to be discussed in good faith by both parties"
     recap_field := none
     description := "Added laycan period" }]

/-- `re.sub(pattern, replace_func, text, flags)` with the source's
logging closure: per scanned match, in scan order, the closure reads the
matched span, computes the replacement from the match, tracks the change
and appends the returned record to the local `changes` list, and the
match is replaced by the computed text. -/
def subFnAux (fl : Flags) (pat : Re) (cs : List Char) (f : List Char → MatchInfo → String)
    (field desc : String) :
    Nat → Nat → ChangeTracker → List ChangeRecord →
    String × ChangeTracker × List ChangeRecord
  | 0, pos, tr, ch => (strFrom cs pos, tr, ch)
  | k + 1, pos, tr, ch =>
    match searchFrom fl pat cs pos with
    | none => (strFrom cs pos, tr, ch)
    | some m =>
      let old_text := pyGroup0 cs m
      let new_text := f cs m
      let tc := trackChange tr field old_text new_text desc
      let pre := substr cs pos m.start
      if m.start < m.stop then
        let rest := subFnAux fl pat cs f field desc k m.stop tc.2 (ch ++ [tc.1])
        (pre ++ new_text ++ rest.1, rest.2)
      else
        let rest := subFnAux fl pat cs f field desc k (m.start + 1) tc.2 (ch ++ [tc.1])
        (pre ++ new_text ++ charStrAt cs m.start ++ rest.1, rest.2)

/-- State threaded through `merge_documents`: the text being rewritten,
the local `changes` list, and the (mutated) tracker. -/
structure MergeState where
  merged_text : String
  changes : List ChangeRecord
  tracker : ChangeTracker

/-- One iteration of the merge-rule loop (lines 210–234).  Every rule in
the catalog has a `replacement` key, so the `if 'replacement' in rule`
guard is always taken.  Function replacements go through the global
substitution with the logging closure; string replacements first search
for one match, log a single record for it, and then call the global
substitution `re.sub(pattern, new_text, merged_text)`, which rewrites
every occurrence of the pattern.  The catalog's fixed replacement
strings contain no backslash, so the one-literal template used here
coincides with their parsed replacement template
(`fixed_replacements_parse_literal`, `subTmpl_parsed_literal`). -/
def applyMergeRule (st : MergeState) (rule : MergeRule) : MergeState :=
  match rule.replacement with
  | Repl.fn f =>
    let cs := st.merged_text.data
    let out := subFnAux mFlags rule.pattern cs f rule.field rule.description
      (cs.length + 1) 0 st.tracker st.changes
    { merged_text := out.1, changes := out.2.2, tracker := out.2.1 }
  | Repl.fixed s =>
    match reSearchCs mFlags rule.pattern st.merged_text.data with
    | none => st
    | some m =>
      let old_text := pyGroup0 st.merged_text.data m
      let tc := trackChange st.tracker rule.field old_text s rule.description
      { merged_text := reSubTmpl mFlags rule.pattern [TmplPart.litstr s] st.merged_text
        changes := st.changes ++ [tc.1]
        tracker := tc.2 }

/-- `(as the Charterers or their Agents shall direct, on the following conditions:)` -/
def tradingAnchorRe : Re :=
  Re.group 1 (rchars "as the Charterers or their Agents shall direct, on the following conditions:")

/-- Lines 237–245: if the recap carried a trading-exclusions block and
the anchor occurs, splice the block after the anchor and log one
insertion record.  The substitution is
`re.sub(exclusion_pattern, r'\1' + trading_exclusions, merged_text)`:
the recap-supplied block is part of the replacement *template*, so
Python parses the whole string for escapes — backslash escapes in the
recap value are expanded, and a bad escape raises `re.error` out of
`merge_documents` before `track_change` is called. -/
def applyTrading (recap_data : List (String × String)) (st : MergeState) :
    Except String MergeState :=
  match flookup recap_data "trading_exclusions" with
  | some v =>
    if (reSearchCs nFlags tradingAnchorRe st.merged_text.data).isSome then
      let trading_exclusions := "\n\nTRADING EXCLUSIONS:\n" ++ v ++ "\n"
      match parseTemplate (reMaxGroup tradingAnchorRe) ("\\1" ++ trading_exclusions).data with
      | Except.error e => Except.error e
      | Except.ok parts =>
        let tc := trackChange st.tracker "trading_exclusions" "" trading_exclusions
          "Added trading exclusions clause"
        Except.ok
          { merged_text := reSubTmpl nFlags tradingAnchorRe parts st.merged_text
            changes := st.changes ++ [tc.1]
            tracker := tc.2 }
    else Except.ok st
  | none => Except.ok st

/-- The dry-docking clause appended unconditionally (line 248). -/
def ddClause : String :=
  "\n\nDRY-DOCKING CLAUSE:\nDry-docking / SS Oct - early Nov 25 in China or Med/Black Sea/Portugal, duration 10-15 days. DD location (med or China) is in Charterer's option. Charterers to place the vessel into either Med Sea / Black Sea range or Singapore - Japan range for owners to take over for DD.\n"

/-- Lines 247–252: append the dry-docking clause and log it. -/
def applyDryDock (st : MergeState) : MergeState :=
  let tc := trackChange st.tracker "dry_docking" "" ddClause "Added dry-docking clause"
  { merged_text := st.merged_text ++ ddClause
    changes := st.changes ++ [tc.1]
    tracker := tc.2 }

/-- The numbered description lines of the summary block
(`for i, change in enumerate(changes, 1)`). -/
def numberLines : Nat → List ChangeRecord → String
  | _, [] => ""
  | i, c :: rest => toString i ++ ". " ++ c.description ++ "\n" ++ numberLines (i + 1) rest

/-- The trailing summary block (lines 254–262). -/
def summarySection (changes : List ChangeRecord) : String :=
  "\n\n=== SUMMARY OF CHANGES ===\n" ++
  (if changes = [] then
    "No changes were made to the base Charter Party document.\n=== END SUMMARY ===\n"
   else
    "The following modifications were made to the base Charter Party:\n\n" ++
      numberLines 1 changes ++ "\n=== END SUMMARY ===\n")

/-- Lines 254–264: append the summary block to the merged text. -/
def applySummary (st : MergeState) : MergeState :=
  { st with merged_text := st.merged_text ++ summarySection st.changes }

/-- `DocumentProcessor.merge_documents`: the rule loop on the base text,
then the trading-exclusions splice, the dry-docking clause, and the
summary block.  The source returns `(merged_text, changes)` and mutates
the caller's tracker; all three are returned here.  The trading step
can raise `re.error` (escape processing of the recap-supplied
replacement text); the exception propagates, so the later steps never
run on that path. -/
def merge_documents (base_cp_text : String) (recap_data : List (String × String))
    (change_tracker : ChangeTracker) : Except String MergeState :=
  let st0 : MergeState :=
    { merged_text := base_cp_text, changes := [], tracker := change_tracker }
  match applyTrading recap_data (mergeRules.foldl applyMergeRule st0) with
  | Except.error e => Except.error e
  | Except.ok st2 => Except.ok (applySummary (applyDryDock st2))

/-- Did the merge return normally? -/
def mergeIsOk : Except String MergeState → Bool
  | Except.ok _ => true
  | Except.error _ => false

/-- The returned state of a merge known to return normally (the error
arm is a placeholder never used by the theorems below, which pair this
with a `mergeIsOk` fact). -/
def mergeOkD : Except String MergeState → MergeState
  | Except.ok st => st
  | Except.error _ =>
    { merged_text := "", changes := [], tracker := { changes := [], clock := fun _ => "" } }

/-- A concrete clock for concrete merge runs. -/
def tsClock : Nat → String := fun _ => "ts"

/-! ### The fixed-string rules and template parsing

`applyMergeRule`'s fixed branch substitutes with the one-literal
template `[TmplPart.litstr s]`.  The theorems below justify this
against the faithful template semantics: each of the catalog's four
fixed replacement strings contains no backslash, so CPython's
`parse_template` accepts it and yields a template that is pure literal
text expanding to the string itself, and substituting with that parsed
template gives the same text as substituting with the one-literal
template. -/

/-- The concatenated text of a template containing no group reference
(`none` when one occurs). -/
def tmplLits : List TmplPart → Option String
  | [] => some ""
  | TmplPart.litstr a :: rest => (tmplLits rest).map (fun b => a ++ b)
  | TmplPart.grp _ :: _ => none

/-- Does `s` parse (against a pattern with `groups` groups) into a
template of pure literal text equal to `s` itself? -/
def parsesLiterally (groups : Nat) (s : String) : Bool :=
  match parseTemplate groups s.data with
  | Except.ok parts => tmplLits parts == some s
  | Except.error _ => false

theorem expandTmpl_of_lits (cs : List Char) (m : MatchInfo) :
    ∀ (parts : List TmplPart) (acc s : String), tmplLits parts = some s →
      parts.foldl
        (fun acc p =>
          acc ++ match p with
                 | TmplPart.litstr a => a
                 | TmplPart.grp i => if i == 0 then pyGroup0 cs m else pyGroupD cs m i) acc =
        acc ++ s := by
  intro parts
  induction parts with
  | nil =>
    intro acc s h
    simp only [tmplLits, Option.some.injEq] at h
    subst h
    simp
  | cons p rest ih =>
    intro acc s h
    cases p with
    | grp i => simp [tmplLits] at h
    | litstr a =>
      simp only [tmplLits, Option.map_eq_some'] at h
      obtain ⟨b, hb, hs⟩ := h
      subst hs
      rw [List.foldl_cons, ih (acc ++ a) b hb, String.append_assoc]

theorem expandTmpl_eq_of_lits (cs : List Char) (m : MatchInfo) (parts : List TmplPart)
    (s : String) (h : tmplLits parts = some s) : expandTmpl cs m parts = s := by
  unfold expandTmpl
  rw [expandTmpl_of_lits cs m parts "" s h]
  simp

theorem subTmplAux_congr (fl : Flags) (r : Re) (cs : List Char) (p1 p2 : List TmplPart)
    (h : ∀ m, expandTmpl cs m p1 = expandTmpl cs m p2) :
    ∀ (k pos : Nat), subTmplAux fl r cs p1 k pos = subTmplAux fl r cs p2 k pos := by
  intro k
  induction k with
  | zero => intro pos; rfl
  | succ k ih =>
    intro pos
    simp only [subTmplAux]
    cases searchFrom fl r cs pos with
    | none => rfl
    | some m => simp [h m, ih]

/-- Substituting with a parsed pure-literal template is the same as
substituting with the one-literal template the fixed branch uses. -/
theorem subTmpl_parsed_literal (fl : Flags) (r : Re) (cs : List Char)
    (parts : List TmplPart) (s : String) (h : tmplLits parts = some s) :
    ∀ (k pos : Nat),
      subTmplAux fl r cs parts k pos = subTmplAux fl r cs [TmplPart.litstr s] k pos := by
  refine subTmplAux_congr fl r cs parts [TmplPart.litstr s] (fun m => ?_)
  rw [expandTmpl_eq_of_lits cs m parts s h]
  simp [expandTmpl]

set_option maxRecDepth 16384 in
/-- Each fixed replacement string of the merge-rule catalog parses,
against its own rule's pattern, into a pure-literal template equal to
the string itself. -/
theorem fixed_replacements_parse_literal :
    parsesLiterally (reMaxGroup ownerRuleRe) "MV LUNAR STAR 1 SHIPPING COMPANY LIMITED, C/o Oesterreichischer Lloyd Seereederei (Cyprus) Ltd, 67 Franklin Roosevelt Ave, Limassol, VAT number CY60177359M" = true ∧
    parsesLiterally (reMaxGroup chartererRuleRe) "Louis Dreyfus Company Suisse S.A.- Charterers of the City of GVA Center,29 route de l' Aéroport- P.O. Box 236, 1215 Geneva 15,Switzerland" = true ∧
    parsesLiterally (reMaxGroup deliveryRuleRe) "Yeosu, subject Sellers port changes" = true ∧
    parsesLiterally (reMaxGroup laycanRuleRe) "Laycan: 3-10 July – it is mutually agreed between both Owners and Charterers that if any adjustment on laycan required, same to be discussed in good faith by both parties" = true := by
  decide

/-! ## Claim C3 -/

/-- C3: `_determine_change_type` is a total pure function of
`(old_value, new_value)`: empty old and non-empty new give `addition`;
non-empty old and empty new give `deletion`; unequal non-empty values
give `modification`; equal values give `no_change`. -/
theorem determineChangeType_spec (old_value new_value : String) :
    (old_value = "" → new_value ≠ "" → determineChangeType old_value new_value = "addition") ∧
    (old_value ≠ "" → new_value = "" → determineChangeType old_value new_value = "deletion") ∧
    (old_value ≠ "" → new_value ≠ "" → old_value ≠ new_value →
      determineChangeType old_value new_value = "modification") ∧
    (old_value = new_value → determineChangeType old_value new_value = "no_change") := by
  refine ⟨?_, ?_, ?_, ?_⟩
  · intro h1 h2
    simp [determineChangeType, h1, h2]
  · intro h1 h2
    simp [determineChangeType, h1, h2]
  · intro h1 h2 h3
    simp [determineChangeType, h1, h2, h3]
  · intro h
    subst h
    simp [determineChangeType]

/-- Witness for C3 at concrete inputs. -/
theorem determineChangeType_spec_witness :
    (("" : String) = "" ∧ ("x" : String) ≠ "" ∧ determineChangeType "" "x" = "addition") ∧
    (("x" : String) ≠ "" ∧ determineChangeType "x" "x" = "no_change") :=
  ⟨⟨rfl, by decide, (determineChangeType_spec "" "x").1 rfl (by decide)⟩,
   ⟨by decide, (determineChangeType_spec "x" "x").2.2.2 rfl⟩⟩

/-! ## Claim C4 -/

/-- C4: `generate_summary` on an empty change list returns
`total_changes = 0`, an empty `change_types` dict (so every per-type
count reads as zero), an empty `fields_modified` collection, and the
exact sentence `No changes were made to the document.`. -/
theorem generateSummary_empty_spec (now : String) :
    generateSummary [] now =
      { total_changes := 0
        change_types := []
        fields_modified := []
        summary := "No changes were made to the document."
        timestamp := none } ∧
    ∀ k, (flookup (generateSummary [] now).change_types k).getD 0 = 0 := by
  exact ⟨rfl, fun k => rfl⟩

/-! ## Claim C5 -/

/-- A sequence of `track_change` calls on one tracker (each tuple is the
`(field, old_value, new_value, description)` argument list of one call). -/
def applyCalls (calls : List (String × String × String × String)) (t : ChangeTracker) :
    ChangeTracker :=
  calls.foldl (fun tr c => (trackChange tr c.1 c.2.1 c.2.2.1 c.2.2.2).2) t

theorem applyCalls_ids (calls : List (String × String × String × String)) :
    ∀ t : ChangeTracker,
      (applyCalls calls t).changes.map (fun c => c.id) =
        t.changes.map (fun c => c.id) ++ List.range' (t.changes.length + 1) calls.length := by
  induction calls with
  | nil => intro t; simp [applyCalls]
  | cons c rest ih =>
    intro t
    have step : applyCalls (c :: rest) t =
        applyCalls rest (trackChange t c.1 c.2.1 c.2.2.1 c.2.2.2).2 := rfl
    rw [step, ih]
    simp [trackChange, List.range'_succ]

/-- C5: starting from a fresh `ChangeTracker`, after any sequence of `N`
`track_change` calls the ids in the log are exactly `1..N`, in creation
order, with no gaps or repeats (in particular strictly increasing). -/
theorem track_change_ids_spec (calls : List (String × String × String × String))
    (clock : Nat → String) :
    (applyCalls calls { changes := [], clock := clock }).changes.map (fun c => c.id) =
      List.range' 1 calls.length ∧
    List.Pairwise (fun a b => a < b)
      ((applyCalls calls { changes := [], clock := clock }).changes.map (fun c => c.id)) := by
  have h := applyCalls_ids calls { changes := [], clock := clock }
  simp at h
  refine ⟨h, ?_⟩
  rw [h]
  exact List.pairwise_lt_range' 1 calls.length

/-! ## Claim C6 -/

theorem sumStep_count_add (acc : (Nat × Nat × Nat) × List String) (c : ChangeRecord) :
    (sumStep acc c).1.1 = acc.1.1 + (if c.change_type = "addition" then 1 else 0) := by
  by_cases h1 : c.change_type = "addition"
  · simp [sumStep, h1]
  · by_cases h2 : c.change_type = "modification"
    · simp [sumStep, h1, h2]
    · by_cases h3 : c.change_type = "deletion" <;> simp [sumStep, h1, h2, h3]

theorem sumStep_count_mod (acc : (Nat × Nat × Nat) × List String) (c : ChangeRecord) :
    (sumStep acc c).1.2.1 = acc.1.2.1 + (if c.change_type = "modification" then 1 else 0) := by
  by_cases h1 : c.change_type = "addition"
  · simp [sumStep, h1]
  · by_cases h2 : c.change_type = "modification"
    · simp [sumStep, h1, h2]
    · by_cases h3 : c.change_type = "deletion" <;> simp [sumStep, h1, h2, h3]

theorem sumStep_count_del (acc : (Nat × Nat × Nat) × List String) (c : ChangeRecord) :
    (sumStep acc c).1.2.2 = acc.1.2.2 + (if c.change_type = "deletion" then 1 else 0) := by
  by_cases h1 : c.change_type = "addition"
  · simp [sumStep, h1]
  · by_cases h2 : c.change_type = "modification"
    · simp [sumStep, h1, h2]
    · by_cases h3 : c.change_type = "deletion" <;> simp [sumStep, h1, h2, h3]

theorem foldl_sumStep_counts (l : List ChangeRecord) :
    ∀ acc : (Nat × Nat × Nat) × List String,
      (l.foldl sumStep acc).1.1 =
          acc.1.1 + l.countP (fun c => decide (c.change_type = "addition")) ∧
      (l.foldl sumStep acc).1.2.1 =
          acc.1.2.1 + l.countP (fun c => decide (c.change_type = "modification")) ∧
      (l.foldl sumStep acc).1.2.2 =
          acc.1.2.2 + l.countP (fun c => decide (c.change_type = "deletion")) := by
  induction l with
  | nil => intro acc; simp
  | cons c rest ih =>
    intro acc
    rw [List.foldl_cons]
    have h := ih (sumStep acc c)
    refine ⟨?_, ?_, ?_⟩
    · rw [h.1, sumStep_count_add, List.countP_cons]
      by_cases h1 : c.change_type = "addition" <;> simp [h1] <;> omega
    · rw [h.2.1, sumStep_count_mod, List.countP_cons]
      by_cases h1 : c.change_type = "modification" <;> simp [h1] <;> omega
    · rw [h.2.2, sumStep_count_del, List.countP_cons]
      by_cases h1 : c.change_type = "deletion" <;> simp [h1] <;> omega

/-- The scenario log of the claim: two additions then one modification,
produced by three `track_change` calls on a fresh tracker. -/
def scenarioLog : List ChangeRecord :=
  (applyCalls
    [("clause_a", "", "x", "added a"),
     ("clause_b", "", "y", "added b"),
     ("clause_c", "u", "v", "changed c")]
    { changes := [], clock := fun _ => "t" }).changes

/-- C6: on a non-empty change list, `generate_summary` reports
`total_changes` equal to the list's length, counts the
addition/modification/deletion occurrences, and builds the narrative
sentence from the non-zero counts in the fixed order addition,
modification, deletion, joined by commas; the concrete scenario with two
additions and one modification yields exactly
`Document successfully merged with 2 addition(s), 1 modification(s).`
and `total_changes = 3`. -/
theorem generateSummary_nonempty_spec :
    (∀ (changes : List ChangeRecord) (now : String), changes ≠ [] →
      (generateSummary changes now).total_changes = changes.length ∧
      (generateSummary changes now).change_types =
        [("additions", changes.countP (fun c => decide (c.change_type = "addition"))),
         ("modifications", changes.countP (fun c => decide (c.change_type = "modification"))),
         ("deletions", changes.countP (fun c => decide (c.change_type = "deletion")))] ∧
      (generateSummary changes now).summary =
        "Document successfully merged with " ++
          String.intercalate ", "
            (sentenceParts
              (changes.countP (fun c => decide (c.change_type = "addition")))
              (changes.countP (fun c => decide (c.change_type = "modification")))
              (changes.countP (fun c => decide (c.change_type = "deletion")))) ++ ".") ∧
    (generateSummary scenarioLog "T").summary =
      "Document successfully merged with 2 addition(s), 1 modification(s)." ∧
    (generateSummary scenarioLog "T").total_changes = 3 := by
  refine ⟨?_, by decide, by decide⟩
  intro changes now h
  have hc := foldl_sumStep_counts changes sumInit
  have ha : (changes.foldl sumStep sumInit).1.1 =
      changes.countP (fun c => decide (c.change_type = "addition")) := by
    rw [hc.1]
    simp [sumInit]
  have hm : (changes.foldl sumStep sumInit).1.2.1 =
      changes.countP (fun c => decide (c.change_type = "modification")) := by
    rw [hc.2.1]
    simp [sumInit]
  have hd : (changes.foldl sumStep sumInit).1.2.2 =
      changes.countP (fun c => decide (c.change_type = "deletion")) := by
    rw [hc.2.2]
    simp [sumInit]
  refine ⟨by simp [generateSummary, h], ?_, ?_⟩
  · simp [generateSummary, h, ha, hm, hd]
  · simp [generateSummary, h, ha, hm, hd]

/-- Witness for C6's non-empty hypothesis at the scenario log. -/
theorem generateSummary_nonempty_spec_witness :
    scenarioLog ≠ [] ∧ (generateSummary scenarioLog "T").total_changes = scenarioLog.length :=
  ⟨by decide, (generateSummary_nonempty_spec.1 scenarioLog "T" (by decide)).1⟩

/-! ## Claim C7 -/

/-- The text produced by replacing each scanned match with the value the
replacement function computes from it (the stitching `re.sub` performs,
with the empty-match advance mirrored from `subFnAux`). -/
def stitchList (cs : List Char) (f : List Char → MatchInfo → String) :
    Nat → List MatchInfo → String
  | pos, [] => strFrom cs pos
  | pos, m :: ms =>
    substr cs pos m.start ++ f cs m ++
      (if m.start < m.stop then stitchList cs f m.stop ms
       else charStrAt cs m.start ++ stitchList cs f (m.start + 1) ms)

/-- The change records a function-replacement rule logs for a list of
matches: one per match, in scan order, with consecutive ids starting
after the `n` records already in the tracker, `old_value` the matched
span, `new_value` the computed replacement, and the rule's field and
description. -/
def recsList (cs : List Char) (f : List Char → MatchInfo → String) (field desc : String)
    (clock : Nat → String) : Nat → List MatchInfo → List ChangeRecord
  | _, [] => []
  | n, m :: ms =>
    { id := n + 1
      field := field
      old_value := pyGroup0 cs m
      new_value := f cs m
      description := desc
      timestamp := clock n
      change_type := determineChangeType (pyGroup0 cs m) (f cs m) } ::
      recsList cs f field desc clock (n + 1) ms

theorem recsList_length (cs : List Char) (f : List Char → MatchInfo → String)
    (field desc : String) (clock : Nat → String) :
    ∀ (n : Nat) (ms : List MatchInfo),
      (recsList cs f field desc clock n ms).length = ms.length := by
  intro n ms
  induction ms generalizing n with
  | nil => rfl
  | cons m rest ih => simp [recsList, ih]

theorem subFnAux_spec (fl : Flags) (pat : Re) (cs : List Char)
    (f : List Char → MatchInfo → String) (field desc : String) :
    ∀ (k pos : Nat) (tr : ChangeTracker) (ch : List ChangeRecord),
      subFnAux fl pat cs f field desc k pos tr ch =
        (stitchList cs f pos (subScanAux fl pat cs k pos),
         { changes := tr.changes ++
             recsList cs f field desc tr.clock tr.changes.length (subScanAux fl pat cs k pos)
           clock := tr.clock },
         ch ++ recsList cs f field desc tr.clock tr.changes.length
           (subScanAux fl pat cs k pos)) := by
  intro k
  induction k with
  | zero =>
    intro pos tr ch
    simp [subFnAux, subScanAux, stitchList, recsList]
  | succ k ih =>
    intro pos tr ch
    cases h : searchFrom fl pat cs pos with
    | none => simp [subFnAux, subScanAux, h, stitchList, recsList]
    | some m =>
      by_cases hlt : m.start < m.stop
      · simp only [subFnAux, h, if_pos hlt, subScanAux, stitchList, recsList]
        rw [ih]
        simp [trackChange, List.append_assoc]
      · simp only [subFnAux, h, if_neg hlt, subScanAux, stitchList, recsList]
        rw [ih]
        simp [trackChange, List.append_assoc, String.append_assoc]

/-- C7: for a merge rule whose replacement strategy is a function of the
match, `applyMergeRule` (the body of the merge loop) replaces every
non-overlapping occurrence of the rule's pattern in the current text,
and logs exactly one ChangeRecord per occurrence — `old_value` the
matched span, `new_value` the function's result on the match, with the
rule's field and description (and consecutive ids continuing the
tracker's log). -/
theorem applyMergeRule_fn_spec (f : List Char → MatchInfo → String)
    (field desc : String) (rf : Option String) (pat : Re) (st : MergeState) :
    (applyMergeRule st
        { field := field, pattern := pat, replacement := Repl.fn f,
          recap_field := rf, description := desc } =
      { merged_text :=
          stitchList st.merged_text.data f 0 (subMatches mFlags pat st.merged_text.data)
        changes := st.changes ++
          recsList st.merged_text.data f field desc st.tracker.clock st.tracker.changes.length
            (subMatches mFlags pat st.merged_text.data)
        tracker :=
          { changes := st.tracker.changes ++
              recsList st.merged_text.data f field desc st.tracker.clock
                st.tracker.changes.length (subMatches mFlags pat st.merged_text.data)
            clock := st.tracker.clock } }) ∧
    ∀ (n : Nat) (ms : List MatchInfo),
      (recsList st.merged_text.data f field desc st.tracker.clock n ms).length = ms.length := by
  constructor
  · simp only [applyMergeRule, subMatches]
    rw [subFnAux_spec]
  · exact recsList_length st.merged_text.data f field desc st.tracker.clock

/-! ## Claim C8 -/

/-- A change record without its timestamp field (the only component the
wall clock influences). -/
def eraseTs (c : ChangeRecord) : Nat × String × String × String × String × String :=
  (c.id, c.field, c.old_value, c.new_value, c.description, c.change_type)

/-- Two trackers agreeing on everything but record timestamps. -/
def TrackRel (t1 t2 : ChangeTracker) : Prop :=
  t1.changes.map eraseTs = t2.changes.map eraseTs

/-- Two merge states agreeing on the text and on everything but record
timestamps. -/
def StateRel (s1 s2 : MergeState) : Prop :=
  s1.merged_text = s2.merged_text ∧
  s1.changes.map eraseTs = s2.changes.map eraseTs ∧
  TrackRel s1.tracker s2.tracker

theorem TrackRel.length {t1 t2 : ChangeTracker} (h : TrackRel t1 t2) :
    t1.changes.length = t2.changes.length := by
  have := congrArg List.length h
  simpa using this

theorem trackChange_rel {t1 t2 : ChangeTracker} (h : TrackRel t1 t2)
    (fi o n d : String) :
    eraseTs (trackChange t1 fi o n d).1 = eraseTs (trackChange t2 fi o n d).1 ∧
    TrackRel (trackChange t1 fi o n d).2 (trackChange t2 fi o n d).2 := by
  have hl := h.length
  have h' : t1.changes.map eraseTs = t2.changes.map eraseTs := h
  constructor
  · simp [trackChange, eraseTs, hl]
  · simp [TrackRel, trackChange, eraseTs, hl, h']

theorem recsList_eraseTs (cs : List Char) (f : List Char → MatchInfo → String)
    (field desc : String) :
    ∀ (ms : List MatchInfo) (n : Nat) (c1 c2 : Nat → String),
      (recsList cs f field desc c1 n ms).map eraseTs =
        (recsList cs f field desc c2 n ms).map eraseTs := by
  intro ms
  induction ms with
  | nil => intro n c1 c2; rfl
  | cons m rest ih => intro n c1 c2; simp [recsList, eraseTs, ih n.succ c1 c2]

theorem applyMergeRule_rel (r : MergeRule) {s1 s2 : MergeState} (h : StateRel s1 s2) :
    StateRel (applyMergeRule s1 r) (applyMergeRule s2 r) := by
  obtain ⟨ht, hc, htr⟩ := h
  have hl := htr.length
  have htr' : s1.tracker.changes.map eraseTs = s2.tracker.changes.map eraseTs := htr
  cases hrep : r.replacement with
  | fn f =>
    simp only [applyMergeRule, hrep]
    rw [subFnAux_spec, subFnAux_spec]
    refine ⟨?_, ?_, ?_⟩
    · simp [ht]
    · simp only [ht, List.map_append, hc, hl]
      rw [recsList_eraseTs s2.merged_text.data f r.field r.description _ _
        s1.tracker.clock s2.tracker.clock]
    · simp only [TrackRel, ht, List.map_append, htr', hl]
      rw [recsList_eraseTs s2.merged_text.data f r.field r.description _ _
        s1.tracker.clock s2.tracker.clock]
  | fixed s =>
    simp only [applyMergeRule, hrep, ht]
    cases hs : reSearchCs mFlags r.pattern s2.merged_text.data with
    | none => exact ⟨ht, hc, htr⟩
    | some m =>
      have htc := trackChange_rel htr r.field (pyGroup0 s2.merged_text.data m) s r.description
      refine ⟨rfl, ?_, htc.2⟩
      simp [List.map_append, hc, htc.1]

theorem foldl_applyMergeRule_rel (rules : List MergeRule) :
    ∀ {s1 s2 : MergeState}, StateRel s1 s2 →
      StateRel (rules.foldl applyMergeRule s1) (rules.foldl applyMergeRule s2) := by
  induction rules with
  | nil => intro s1 s2 h; exact h
  | cons r rest ih => intro s1 s2 h; exact ih (applyMergeRule_rel r h)

/-- Two merge outcomes agreeing modulo timestamps: both raise the same
error, or both return states related by `StateRel`. -/
def MergeRel : Except String MergeState → Except String MergeState → Prop
  | Except.ok s1, Except.ok s2 => StateRel s1 s2
  | Except.error e1, Except.error e2 => e1 = e2
  | _, _ => False

set_option maxRecDepth 16384 in
theorem applyTrading_rel (recap : List (String × String)) {s1 s2 : MergeState}
    (h : StateRel s1 s2) : MergeRel (applyTrading recap s1) (applyTrading recap s2) := by
  obtain ⟨ht, hc, htr⟩ := h
  simp only [applyTrading, ht]
  cases flookup recap "trading_exclusions" with
  | none => exact ⟨ht, hc, htr⟩
  | some v =>
    by_cases hcond : (reSearchCs nFlags tradingAnchorRe s2.merged_text.data).isSome
    · simp only [if_pos hcond]
      cases parseTemplate (reMaxGroup tradingAnchorRe)
          ("\\1" ++ ("\n\nTRADING EXCLUSIONS:\n" ++ v ++ "\n")).data with
      | error e => exact rfl
      | ok parts =>
        have htc := trackChange_rel htr "trading_exclusions" ""
          ("\n\nTRADING EXCLUSIONS:\n" ++ v ++ "\n") "Added trading exclusions clause"
        exact ⟨rfl, by simp [List.map_append, hc, htc.1], htc.2⟩
    · simp only [if_neg hcond]
      exact ⟨ht, hc, htr⟩

theorem applyDryDock_rel {s1 s2 : MergeState} (h : StateRel s1 s2) :
    StateRel (applyDryDock s1) (applyDryDock s2) := by
  obtain ⟨ht, hc, htr⟩ := h
  have htc := trackChange_rel htr "dry_docking" "" ddClause "Added dry-docking clause"
  exact ⟨by simp [applyDryDock, ht], by simp [applyDryDock, hc, htc.1], htc.2⟩

theorem numberLines_congr :
    ∀ (l1 l2 : List ChangeRecord) (i : Nat),
      l1.map eraseTs = l2.map eraseTs → numberLines i l1 = numberLines i l2 := by
  intro l1
  induction l1 with
  | nil =>
    intro l2 i h
    have : l2 = [] := by
      cases l2 with
      | nil => rfl
      | cons c cs => simp at h
    rw [this]
  | cons c1 rest1 ih =>
    intro l2 i h
    cases l2 with
    | nil => simp at h
    | cons c2 rest2 =>
      simp only [List.map_cons, List.cons.injEq] at h
      have hd : c1.description = c2.description :=
        congrArg (fun p => p.2.2.2.2.1) h.1
      simp [numberLines, hd, ih rest2 (i + 1) h.2]

theorem summarySection_congr {l1 l2 : List ChangeRecord}
    (h : l1.map eraseTs = l2.map eraseTs) : summarySection l1 = summarySection l2 := by
  have hlen : l1.length = l2.length := by
    have := congrArg List.length h
    simpa using this
  by_cases h1 : l1 = []
  · have h2 : l2 = [] := by
      rw [h1] at hlen
      exact List.eq_nil_of_length_eq_zero hlen.symm
    rw [h1, h2]
  · have h2 : l2 ≠ [] := by
      intro hnil
      rw [hnil] at hlen
      exact h1 (List.eq_nil_of_length_eq_zero hlen)
    simp [summarySection, h1, h2, numberLines_congr l1 l2 1 h]

theorem applySummary_rel {s1 s2 : MergeState} (h : StateRel s1 s2) :
    StateRel (applySummary s1) (applySummary s2) := by
  obtain ⟨ht, hc, htr⟩ := h
  exact ⟨by simp [applySummary, ht, summarySection_congr hc], hc, htr⟩

/-- C8: `merge_documents` is deterministic in everything but the clock —
two runs on the same base text and FieldMap with fresh trackers (whose
clocks may differ arbitrarily) behave identically: on the error path
they raise the same error, and on the normal path they produce identical
merged texts and change lists that agree on every field except the
timestamps. -/
theorem merge_documents_deterministic (base : String) (recap : List (String × String))
    (c1 c2 : Nat → String) :
    (merge_documents base recap { changes := [], clock := c1 }).map
        (fun s => s.merged_text) =
      (merge_documents base recap { changes := [], clock := c2 }).map
        (fun s => s.merged_text) ∧
    (merge_documents base recap { changes := [], clock := c1 }).map
        (fun s => s.changes.map eraseTs) =
      (merge_documents base recap { changes := [], clock := c2 }).map
        (fun s => s.changes.map eraseTs) := by
  have h0 : StateRel
      { merged_text := base, changes := [], tracker := { changes := [], clock := c1 } }
      { merged_text := base, changes := [], tracker := { changes := [], clock := c2 } } :=
    ⟨rfl, rfl, rfl⟩
  have h := applyTrading_rel recap (foldl_applyMergeRule_rel mergeRules h0)
  simp only [merge_documents]
  cases e1 : applyTrading recap (mergeRules.foldl applyMergeRule
      { merged_text := base, changes := [], tracker := { changes := [], clock := c1 } }) with
  | error msg1 =>
    cases e2 : applyTrading recap (mergeRules.foldl applyMergeRule
        { merged_text := base, changes := [], tracker := { changes := [], clock := c2 } }) with
    | error msg2 =>
      rw [e1, e2] at h
      have hm : msg1 = msg2 := h
      simp [hm]
    | ok s2 =>
      rw [e1, e2] at h
      exact h.elim
  | ok s1 =>
    cases e2 : applyTrading recap (mergeRules.foldl applyMergeRule
        { merged_text := base, changes := [], tracker := { changes := [], clock := c2 } }) with
    | error msg2 =>
      rw [e1, e2] at h
      exact h.elim
    | ok s2 =>
      rw [e1, e2] at h
      have hs : StateRel s1 s2 := h
      have hfin := applySummary_rel (applyDryDock_rel hs)
      constructor
      · simp only [Except.map]
        exact congrArg Except.ok hfin.1
      · simp only [Except.map]
        exact congrArg Except.ok hfin.2.1

/-! ## Claim C10 -/

/-- C10 counterexample input: a base text that is exactly the
trading-exclusions anchor sentence. -/
def tradingAnchorText : String :=
  "as the Charterers or their Agents shall direct, on the following conditions:"

set_option maxRecDepth 16384 in
set_option maxHeartbeats 1000000 in
/-- C10 counterexample: with the anchor present in the base text and a
FieldMap whose trading-exclusions value contains the escape `\p`, the
trading-exclusions substitution raises `re.error` (bad escape) BEFORE
the dry-docking append, so `merge_documents` raises and returns nothing
— no dry-docking clause, no change list at all — refuting
"unconditionally appends the dry-docking clause" and "the returned
change list is never empty" for this FieldMap.  The same input with an
escape-free value returns normally, isolating the escape as the cause. -/
theorem dry_docking_not_universal_counterexample :
    mergeIsOk (merge_documents tradingAnchorText [("trading_exclusions", "\\p")]
      { changes := [], clock := tsClock }) = false ∧
    mergeIsOk (merge_documents tradingAnchorText [("trading_exclusions", "OK")]
      { changes := [], clock := tsClock }) = true := by
  decide

/-- C10 (amended): whenever `merge_documents` returns at all — in
particular whenever the trading-exclusions replacement text parses
cleanly, e.g. for every FieldMap without that key — it has appended the
dry-docking clause and logged a record for it (`old_value = ""`,
classified `addition`, the last record of the returned list), so the
returned change list is never empty, the merged text ends with the
summary block over that list, and the summary block always takes the
"following modifications" branch — the "No changes were made to the
base Charter Party document." branch is unreachable through a
normally-returning `merge_documents`. -/
theorem merge_documents_always_dry_docking (base : String)
    (recap : List (String × String)) (tr : ChangeTracker) (st : MergeState)
    (h : merge_documents base recap tr = Except.ok st) :
    st.changes ≠ [] ∧
    (∃ r, st.changes.getLast? = some r ∧
      r.field = "dry_docking" ∧ r.old_value = "" ∧ r.new_value = ddClause ∧
      r.description = "Added dry-docking clause" ∧ r.change_type = "addition") ∧
    (∃ pre, st.merged_text = pre ++ summarySection st.changes) ∧
    summarySection st.changes =
      "\n\n=== SUMMARY OF CHANGES ===\n" ++
        ("The following modifications were made to the base Charter Party:\n\n" ++
          numberLines 1 st.changes ++
          "\n=== END SUMMARY ===\n") := by
  simp only [merge_documents] at h
  cases ht : applyTrading recap (mergeRules.foldl applyMergeRule
      { merged_text := base, changes := [], tracker := tr }) with
  | error e =>
    rw [ht] at h
    exact absurd h (by simp)
  | ok st2 =>
    rw [ht] at h
    injection h with hst
    subst hst
    have hchanges : (applySummary (applyDryDock st2)).changes =
        st2.changes ++ [(trackChange st2.tracker "dry_docking" "" ddClause
          "Added dry-docking clause").1] := rfl
    have hne : (applySummary (applyDryDock st2)).changes ≠ [] := by
      rw [hchanges]
      simp
    have htype : determineChangeType "" ddClause = "addition" := by decide
    refine ⟨hne, ?_, ?_, ?_⟩
    · refine ⟨(trackChange st2.tracker "dry_docking" "" ddClause
        "Added dry-docking clause").1, ?_, rfl, rfl, rfl, rfl, htype⟩
      rw [hchanges]
      exact List.getLast?_concat st2.changes
    · exact ⟨(applyDryDock st2).merged_text, rfl⟩
    · rw [hchanges]
      simp [summarySection]

set_option maxRecDepth 16384 in
/-- Witness for C10's amended theorem: a run that does return normally
has the non-empty change list the theorem promises. -/
theorem merge_documents_always_dry_docking_witness :
    ∃ st, merge_documents "BASE" [] { changes := [], clock := tsClock } = Except.ok st ∧
      st.changes ≠ [] := by
  cases h : merge_documents "BASE" [] { changes := [], clock := tsClock } with
  | ok st => exact ⟨st, rfl, (merge_documents_always_dry_docking "BASE" [] _ st h).1⟩
  | error e =>
    have hok : mergeIsOk (merge_documents "BASE" []
        { changes := [], clock := tsClock }) = true := by decide
    rw [h] at hok
    simp [mergeIsOk] at hok

/-! ## Claim C9 -/

theorem flookup_map_set (k v : String) :
    ∀ m : List (String × String), (flookup m k).isSome →
      flookup (m.map (fun p => if p.1 = k then (k, v) else p)) k = some v := by
  intro m
  induction m with
  | nil => intro h; simp [flookup] at h
  | cons p rest ih =>
    intro h
    simp only [List.map_cons]
    by_cases hk : p.1 = k
    · rw [if_pos hk]
      simp [flookup]
    · rw [if_neg hk]
      have h' : (flookup rest k).isSome := by
        simpa [flookup, hk] using h
      simp only [flookup]
      rw [if_neg hk]
      exact ih h' 

theorem flookup_append_single (k v k' : String) (h : k' ≠ k) :
    ∀ m : List (String × String), flookup (m ++ [(k, v)]) k' = flookup m k' := by
  intro m
  induction m with
  | nil =>
    simp only [List.nil_append, flookup]
    rw [if_neg (fun hh => h hh.symm)]
  | cons p rest ih =>
    simp only [List.cons_append, flookup]
    by_cases hk : p.1 = k'
    · rw [if_pos hk, if_pos hk]
    · rw [if_neg hk, if_neg hk]
      exact ih

theorem flookup_dinsert_self (m : List (String × String)) (k v : String) :
    flookup (dinsert m k v) k = some v := by
  unfold dinsert
  by_cases hs : (flookup m k).isSome
  · simp only [if_pos hs]
    exact flookup_map_set k v m hs
  · simp only [if_neg hs]
    induction m with
    | nil => simp [flookup]
    | cons p rest ih =>
      by_cases hk : p.1 = k
      · exact absurd (by simp [flookup, hk]) hs
      · have hs' : ¬(flookup rest k).isSome := by
          simpa [flookup, hk] using hs
        simp [flookup, hk, ih hs']

theorem flookup_map_set_ne (k v k' : String) (h : k' ≠ k) :
    ∀ m : List (String × String),
      flookup (m.map (fun p => if p.1 = k then (k, v) else p)) k' = flookup m k' := by
  intro m
  induction m with
  | nil => rfl
  | cons p rest ih =>
    simp only [List.map_cons]
    by_cases hk : p.1 = k
    · rw [if_pos hk]
      have hne1 : ¬ k = k' := fun hh => h hh.symm
      have hne2 : ¬ p.1 = k' := by rw [hk]; exact hne1
      simp only [flookup]
      rw [if_neg hne1, if_neg hne2, ih]
    · rw [if_neg hk]
      simp only [flookup]
      rw [ih]

theorem flookup_dinsert_ne (m : List (String × String)) (k v k' : String) (h : k' ≠ k) :
    flookup (dinsert m k v) k' = flookup m k' := by
  unfold dinsert
  by_cases hs : (flookup m k).isSome
  · simp only [if_pos hs]
    exact flookup_map_set_ne k v k' h m
  · simp only [if_neg hs]
    exact flookup_append_single k v k' h m

/-- A catalog entry only ever writes its own key (or, for the bunkers
entry, the two quantity keys): any other key's lookup is unchanged. -/
theorem applyCatalogEntry_lookup_ne (cs : List Char) (e : String × Re)
    (m : List (String × String)) (k' : String)
    (h1 : k' ≠ e.1) (h2 : k' ≠ "vlsfo_quantity") (h3 : k' ≠ "mgo_quantity") :
    flookup (applyCatalogEntry cs m e) k' = flookup m k' := by
  unfold applyCatalogEntry
  cases reSearchCs idFlags e.2 cs with
  | none => rfl
  | some mm =>
    simp only []
    split
    · split
      · exact flookup_dinsert_ne _ _ _ _ h1
      · exact flookup_dinsert_ne _ _ _ _ h1
    · split
      · split
        · exact flookup_dinsert_ne _ _ _ _ h1
        · exact flookup_dinsert_ne _ _ _ _ h1
      · split
        · split
          · rw [flookup_dinsert_ne _ _ _ _ h3, flookup_dinsert_ne _ _ _ _ h2]
          · exact flookup_dinsert_ne _ _ _ _ h1
        · split
          · split
            · exact flookup_dinsert_ne _ _ _ _ h1
            · exact flookup_dinsert_ne _ _ _ _ h1
          · exact flookup_dinsert_ne _ _ _ _ h1

/-- The value the extraction loop stores for the `imo_number` entry:
the trimmed first captured group (with the source's `IndexError`
fallback to the trimmed whole match, unreachable for this pattern). -/
def imoStoredValue (t : String) (mm : MatchInfo) : String :=
  match pyGroup t.data mm 1 with
  | some g1 => pyStrip g1
  | none => pyStrip (pyGroup0 t.data mm)

/-- The `imo_number` entry of the loop, in closed form: the decidable
string tests on the key and the group count of `IMO\s+(\d+)` all reduce
definitionally. -/
theorem applyCatalogEntry_imo (cs : List Char) (m : List (String × String)) :
    applyCatalogEntry cs m ("imo_number", imoNumberRe) =
      match reSearchCs idFlags imoNumberRe cs with
      | some mm =>
        dinsert m "imo_number"
          (match pyGroup cs mm 1 with
           | some g1 => pyStrip g1
           | none => pyStrip (pyGroup0 cs mm))
      | none => m := by
  simp only [applyCatalogEntry]
  cases hmm : reSearchCs idFlags imoNumberRe cs with
  | none => rfl
  | some mm =>
    simp only [hmm]
    rw [if_neg (by decide), if_neg (by decide), if_neg (by decide), if_pos (by decide)]
    cases pyGroup cs mm 1 <;> rfl

/-- Through the pattern-loop fold, the `imo_number` key is governed by
the `imo_number` entry alone: the thirteen later entries write other
keys, and the one earlier entry writes `vessel_name`. -/
theorem extract_imo_fold (t : String) :
    flookup (extractPatterns.foldl (applyCatalogEntry t.data) []) "imo_number" =
      (reSearchCs idFlags imoNumberRe t.data).map (imoStoredValue t) := by
  simp only [extractPatterns, List.foldl_cons, List.foldl_nil]
  rw [applyCatalogEntry_lookup_ne _ _ _ _ (by decide) (by decide) (by decide)]
  rw [applyCatalogEntry_lookup_ne _ _ _ _ (by decide) (by decide) (by decide)]
  rw [applyCatalogEntry_lookup_ne _ _ _ _ (by decide) (by decide) (by decide)]
  rw [applyCatalogEntry_lookup_ne _ _ _ _ (by decide) (by decide) (by decide)]
  rw [applyCatalogEntry_lookup_ne _ _ _ _ (by decide) (by decide) (by decide)]
  rw [applyCatalogEntry_lookup_ne _ _ _ _ (by decide) (by decide) (by decide)]
  rw [applyCatalogEntry_lookup_ne _ _ _ _ (by decide) (by decide) (by decide)]
  rw [applyCatalogEntry_lookup_ne _ _ _ _ (by decide) (by decide) (by decide)]
  rw [applyCatalogEntry_lookup_ne _ _ _ _ (by decide) (by decide) (by decide)]
  rw [applyCatalogEntry_lookup_ne _ _ _ _ (by decide) (by decide) (by decide)]
  rw [applyCatalogEntry_lookup_ne _ _ _ _ (by decide) (by decide) (by decide)]
  rw [applyCatalogEntry_lookup_ne _ _ _ _ (by decide) (by decide) (by decide)]
  rw [applyCatalogEntry_lookup_ne _ _ _ _ (by decide) (by decide) (by decide)]
  rw [applyCatalogEntry_imo]
  cases hmm : reSearchCs idFlags imoNumberRe t.data with
  | none =>
    simp only [hmm, Option.map_none']
    rw [applyCatalogEntry_lookup_ne _ _ _ _ (by decide) (by decide) (by decide)]
    rfl
  | some mm =>
    simp only [hmm, Option.map_some']
    rw [flookup_dinsert_self]
    rfl

/-- C9 (amended): extraction reads the FIRST `IMO\s+(\d+)` token of the
recap text — the `imo_number` key of the FieldMap is exactly the trimmed
digits captured by the leftmost match of the pattern, and is absent when
no IMO token matches; in particular a recap whose first IMO token is
`IMO 1234567` yields `imo_number = "1234567"`, and a recap with no IMO
token yields no `imo_number` key. -/
theorem extract_imo_number_spec :
    (∀ t : String, flookup (extract_recap_data t) "imo_number" =
      (reSearchCs idFlags imoNumberRe t.data).map (imoStoredValue t)) ∧
    flookup (extract_recap_data "ABC IMO 1234567 XYZ") "imo_number" = some "1234567" ∧
    flookup (extract_recap_data "HELLO WORLD") "imo_number" = none := by
  refine ⟨?_, by decide, by decide⟩
  intro t
  simp only [extract_recap_data]
  cases hh : reSearchCs idFlags hireSectionRe t.data with
  | some mmh =>
    simp only [hh]
    rw [flookup_dinsert_ne _ _ _ _ (by decide)]
    cases ht : reSearchCs idFlags tradingSectionRe t.data with
    | some mmt =>
      simp only [ht]
      rw [flookup_dinsert_ne _ _ _ _ (by decide)]
      exact extract_imo_fold t
    | none =>
      simp only [ht]
      exact extract_imo_fold t
  | none =>
    simp only [hh]
    cases ht : reSearchCs idFlags tradingSectionRe t.data with
    | some mmt =>
      simp only [ht]
      rw [flookup_dinsert_ne _ _ _ _ (by decide)]
      exact extract_imo_fold t
    | none =>
      simp only [ht]
      exact extract_imo_fold t

/-- C9 counterexample: a recap text that does contain the token
`IMO 1234567`, but whose extraction stores the digits of the FIRST IMO
token, `"88"`, not `"1234567"`. -/
theorem imo_first_token_counterexample :
    containsSub "IMO 88 IMO 1234567" "IMO 1234567" = true ∧
    flookup (extract_recap_data "IMO 88 IMO 1234567") "imo_number" = some "88" ∧
    ¬ flookup (extract_recap_data "IMO 88 IMO 1234567") "imo_number" = some "1234567" := by
  decide

/-! ## Claims C1 and C2 — concrete merge runs -/

/-- The laycan rule's locate-pattern as a plain string. -/
def laycanLit : String :=
  "WOULD SUGGEST 1 (ONE) MONTH AFTER DIVER SURVEY TO BE CARRIED OUT IN YEOSU"

/-- The laycan rule's fixed replacement string. -/
def laycanRepl : String :=
  "Laycan: 3-10 July – it is mutually agreed between both Owners and Charterers that if any adjustment on laycan required, same to be discussed in good faith by both parties"

/-- A base text in which the laycan rule's pattern occurs twice (and no
other rule's pattern occurs at all). -/
def c1Base : String := laycanLit ++ "\n" ++ laycanLit

def c1Result : MergeState :=
  mergeOkD (merge_documents c1Base [] { changes := [], clock := tsClock })

set_option maxRecDepth 16384 in
set_option maxHeartbeats 1000000 in
/-- C1 failing input: on a base text containing the laycan pattern
twice, the fixed-string laycan rule logs exactly one ChangeRecord but
the global substitute rewrites BOTH occurrences — the merged text
contains the replacement twice and the original span zero times,
contradicting "replaces only that first occurrence ... leaving any later
occurrences of the pattern unchanged". -/
theorem laycan_rule_global_sub_failing_input :
    mergeIsOk (merge_documents c1Base [] { changes := [], clock := tsClock }) = true ∧
    countOccur c1Base laycanLit = 2 ∧
    c1Result.changes.countP (fun c => c.field == "laycan") = 1 ∧
    countOccur c1Result.merged_text laycanLit = 0 ∧
    countOccur c1Result.merged_text laycanRepl = 2 := by
  decide

/-- A base text matched by the vessel-name rule's pattern. -/
def c2Base : String := "Steamship/Motorship \"OLD NAME\""

def c2Result : MergeState :=
  mergeOkD (merge_documents c2Base [] { changes := [], clock := tsClock })

set_option maxRecDepth 16384 in
set_option maxHeartbeats 1000000 in
/-- C2 counterexample: with an EMPTY FieldMap (so `vessel_name` is
absent), the vessel-name merge rule still fires — it logs a
ChangeRecord and rewrites the text — refuting "its absence causes the
merge rule corresponding to that field to be skipped". -/
theorem absent_field_rule_not_skipped_counterexample :
    flookup ([] : List (String × String)) "vessel_name" = none ∧
    mergeIsOk (merge_documents c2Base [] { changes := [], clock := tsClock }) = true ∧
    c2Result.changes.countP (fun c => c.field == "vessel_name") = 1 ∧
    countOccur c2Result.merged_text "LUNAR STAR 1" = 1 ∧
    countOccur c2Base "LUNAR STAR 1" = 0 := by
  decide

set_option maxRecDepth 16384 in
/-- C2 (amended): a field absent from the FieldMap never makes
`merge_documents` raise (an exception is possible only through a present
`trading_exclusions` value whose escapes fail to parse), and absence
does not cause the corresponding rule to be skipped either: the merge
result depends on the FieldMap only through the `trading_exclusions`
key, whose absence skips only the trading-exclusions insertion — all
merge rules run regardless of the FieldMap. -/
theorem merge_documents_fieldmap_only_trading (base : String)
    (r1 r2 : List (String × String)) (tr : ChangeTracker)
    (h : flookup r1 "trading_exclusions" = flookup r2 "trading_exclusions") :
    merge_documents base r1 tr = merge_documents base r2 tr := by
  unfold merge_documents applyTrading
  rw [h]

/-- Witness for C2's amended theorem: a map carrying only `vessel_name`
behaves exactly like the empty map. -/
theorem merge_documents_fieldmap_only_trading_witness :
    merge_documents c2Base [("vessel_name", "IGNORED")] { changes := [], clock := tsClock } =
      merge_documents c2Base [] { changes := [], clock := tsClock } :=
  merge_documents_fieldmap_only_trading c2Base [("vessel_name", "IGNORED")] []
    { changes := [], clock := tsClock } (by decide)
